import Mathlib

/-!
Verification development for the TF text semantic retrieval system.

The Python SDK layer (src/tf/sdk.py, src/tf/search_result.py,
src/tf/vector_store.py) is embedded shallowly below.  The Rust core
(the tf_rust VectorStore extension: table, ranker, per record storage)
is not part of the repository sources, so its operations are modelled
from the specification where needed; each such definition carries a
doc comment saying so.

Floating point vectors are modelled over the rationals.  The embedder
(src/tf/embeddings.py, an external model invocation) is modelled as an
abstract function from strings to vectors; embeddings.py normalizes
every vector to unit length, so cosine similarity coincides with the
dot product, which is the exact rational score used by the model.
-/

/-- Errors surfaced by the modelled Rust store, following the
specification taxonomy in section 7. -/
inductive StoreError where
  | dimensionMismatch
  | notFound
deriving DecidableEq, Repr

/-- Metadata of a stored document as returned by the store: title, url
and summary only.  Modelled from the spec: the tf_rust record keeps the
vector and these three fields; original content is never part of it. -/
structure Metadata where
  title : String
  url : String
  summary : String
deriving DecidableEq, Repr

/-- A stored record: vector plus metadata.  Modelled from the spec
(section 3, DocumentRecord): content is consumed by the embedding step
and discarded, so the record has no content field. -/
structure DocumentRecord where
  vector : List ℚ
  title : String
  url : String
  summary : String
deriving DecidableEq, Repr

/-- The tf_rust VectorStore state.  Modelled from the spec: a mapping
from document id to its record, plus the fixed dimension set at
construction.  The mapping is an association list with unique keys. -/
structure VectorStore where
  dimension : Nat
  table : List (String × DocumentRecord)
deriving DecidableEq, Repr

/-- Lookup of a record by id in the table. -/
def VectorStore.lookup (s : VectorStore) (id : String) : Option DocumentRecord :=
  match s.table.find? (fun p => p.1 == id) with
  | none => none
  | some p => some p.2

/-- Upsert of a record into the table: replace in place when the id is
present, append otherwise. -/
def upsertTable (table : List (String × DocumentRecord)) (id : String)
    (r : DocumentRecord) : List (String × DocumentRecord) :=
  if table.any (fun p => p.1 == id) then
    table.map (fun p => if p.1 == id then (id, r) else p)
  else
    table ++ [(id, r)]

/-- Modelled from the spec: the tf_rust set operation called by
DocumentStore.add.  It invokes the embedding callback on the content to
obtain the vector, rejects a vector whose length differs from the store
dimension before any mutation, and otherwise upserts the record.  The
content itself is discarded. -/
def VectorStore.set (E : String → List ℚ) (s : VectorStore) (id content title url summary : String) :
    Except StoreError VectorStore :=
  let v := E content
  if v.length ≠ s.dimension then
    .error .dimensionMismatch
  else
    .ok { s with table := upsertTable s.table id ⟨v, title, url, summary⟩ }

/-- Modelled from the spec: the tf_rust get operation returns the
metadata of the record (no vector, no content) or none. -/
def VectorStore.getMeta (s : VectorStore) (id : String) : Option Metadata :=
  match s.lookup id with
  | none => none
  | some r => some ⟨r.title, r.url, r.summary⟩

/-- Modelled from the spec (section 4.1 and Design Notes): the tf_rust
update operation merges only the provided metadata fields into the
existing record, leaving the vector and unspecified fields untouched,
and fails with NotFound when the id is absent. -/
def VectorStore.update (s : VectorStore) (id : String)
    (title url summary : Option String) : Except StoreError VectorStore :=
  match s.lookup id with
  | none => .error .notFound
  | some r =>
    .ok { s with table := upsertTable s.table id ⟨r.vector, title.getD r.title, url.getD r.url, summary.getD r.summary⟩ }

/-- Modelled from the spec: the tf_rust rm operation removes the id if
present; removing an absent id is a no-op. -/
def VectorStore.rm (s : VectorStore) (id : String) : VectorStore :=
  { s with table := s.table.filter (fun p => p.1 != id) }

/-- Modelled from the spec: the tf_rust len operation. -/
def VectorStore.len (s : VectorStore) : Nat :=
  s.table.length

/-- Modelled from the spec: the tf_rust is_empty operation. -/
def VectorStore.isEmptyStore (s : VectorStore) : Bool :=
  s.table.length == 0

/-- Dot product of two rational vectors. -/
def dotProd : List ℚ → List ℚ → ℚ
  | [], _ => 0
  | _, [] => 0
  | a :: as_, b :: bs => a * b + dotProd as_ bs

/-- Modelled from the spec: the similarity score of the ranker.  The
spec prescribes cosine similarity with a zero-norm guard mapping to
score 0.  The embedder (embeddings.py) normalizes every vector to unit
length, for which cosine equals the dot product; the guard is kept
exactly as specified. -/
def simScore (q v : List ℚ) : ℚ :=
  if dotProd q q = 0 ∨ dotProd v v = 0 then 0 else dotProd q v

/-- A raw search row as returned by the Rust search: id, score and the
stored metadata fields. -/
structure SearchRow where
  id : String
  score : ℚ
  title : String
  url : String
  summary : String
deriving DecidableEq, Repr

/-- The ranking order of the spec ranker: higher score first, ties
broken by ascending document id. -/
def rankLE (a b : SearchRow) : Prop :=
  b.score < a.score ∨ (a.score = b.score ∧ a.id ≤ b.id)

instance : DecidableRel rankLE := fun a b => by
  unfold rankLE; infer_instance

instance : IsTotal SearchRow rankLE := by
  constructor
  intro a b
  rcases lt_trichotomy a.score b.score with h | h | h
  · exact Or.inr (Or.inl h)
  · rcases le_total a.id b.id with hid | hid
    · exact Or.inl (Or.inr ⟨h, hid⟩)
    · exact Or.inr (Or.inr ⟨h.symm, hid⟩)
  · exact Or.inl (Or.inl h)

instance : IsTrans SearchRow rankLE := by
  constructor
  intro a b c hab hbc
  rcases hab with h1 | ⟨h1, hid1⟩
  · rcases hbc with h2 | ⟨h2, _⟩
    · exact Or.inl (h2.trans h1)
    · exact Or.inl (h2 ▸ h1)
  · rcases hbc with h2 | ⟨h2, hid2⟩
    · exact Or.inl (h1 ▸ h2)
    · exact Or.inr ⟨h1.trans h2, hid1.trans hid2⟩

/-- Modelled from the spec (section 4.2): the tf_rust search scans all
stored records, scores each against the query, orders by descending
score with ascending id tie-break, and returns the first k. -/
def VectorStore.search (s : VectorStore) (q : List ℚ) (k : Nat) : List SearchRow :=
  (List.insertionSort rankLE
    (s.table.map (fun p => ⟨p.1, simScore q p.2.vector, p.2.title, p.2.url, p.2.summary⟩))).take k

/-- The SDK document store state (src/tf/sdk.py DocumentStore).  The
thread pool and the lock carry no table state and are modelled
separately by the lock acquisition map below. -/
structure DocumentStore where
  store : VectorStore
deriving DecidableEq, Repr

/-- DocumentStore.add (src/tf/sdk.py): embeds the content through the
callback and stores vector plus metadata via the Rust set. -/
def DocumentStore.add (E : String → List ℚ) (d : DocumentStore)
    (docId content title url summary : String) : Except StoreError DocumentStore :=
  (VectorStore.set E d.store docId content title url summary).map DocumentStore.mk

/-- DocumentStore.get (src/tf/sdk.py): returns the stored metadata or
none; content is not included since it is not stored. -/
def DocumentStore.get (d : DocumentStore) (docId : String) : Option Metadata :=
  d.store.getMeta docId

/-- DocumentStore.update (src/tf/sdk.py): forwards to the Rust update
under the lock. -/
def DocumentStore.update (d : DocumentStore) (docId : String)
    (title url summary : Option String) : Except StoreError DocumentStore :=
  (VectorStore.update d.store docId title url summary).map DocumentStore.mk

/-- DocumentStore.delete (src/tf/sdk.py): forwards to the Rust rm under
the lock. -/
def DocumentStore.delete (d : DocumentStore) (docId : String) : DocumentStore :=
  ⟨d.store.rm docId⟩

/-- DocumentStore.delete_batch (src/tf/sdk.py): removes each id in
order, inside a single lock acquisition. -/
def DocumentStore.deleteBatch (d : DocumentStore) (docIds : List String) : DocumentStore :=
  ⟨docIds.foldl (fun s i => s.rm i) d.store⟩

/-- DocumentStore.count (src/tf/sdk.py): returns the Rust len. -/
def DocumentStore.count (d : DocumentStore) : Nat :=
  d.store.len

/-- DocumentStore.is_empty (src/tf/sdk.py). -/
def DocumentStore.isEmptyStore (d : DocumentStore) : Bool :=
  d.store.isEmptyStore

/-- The dunder len of DocumentStore (src/tf/sdk.py): returns count. -/
def DocumentStore.dunderLen (d : DocumentStore) : Nat :=
  d.count

/-- The dunder contains of DocumentStore (src/tf/sdk.py): true exactly
when get returns a value. -/
def DocumentStore.containsDoc (d : DocumentStore) (docId : String) : Bool :=
  (d.get docId).isSome

/-- An entry of an add_batch call (src/tf/sdk.py): a Python dict whose
fields are read with dict.get, so an absent field is none. -/
structure BatchEntry where
  id : Option String
  content : Option String
  title : Option String
  url : Option String
  summary : Option String
deriving DecidableEq, Repr

/-- Python falsiness of an optional string as used by the check
`if not doc_id or not content` in add_batch: none and the empty string
are both falsy. -/
def isFalsy : Option String → Bool
  | none => true
  | some s => s.isEmpty

/-- The per entry validation check of add_batch (src/tf/sdk.py lines
137 and 159): the entry is rejected when its id or its content is
absent or empty. -/
def entryInvalid (e : BatchEntry) : Bool :=
  isFalsy e.id || isFalsy e.content

/-- Rendering of an entry used inside the validation message.  The
Python message interpolates the dict itself; punctuation is simplified
here, field names and values are kept. -/
def fieldText (k : String) : Option String → String
  | none => ""
  | some v => k ++ "=" ++ v ++ ";"

/-- Text of the offending entry inside the validation message. -/
def entryText (e : BatchEntry) : String :=
  fieldText ("id") e.id ++ fieldText ("content") e.content ++ fieldText ("title") e.title
    ++ fieldText ("url") e.url ++ fieldText ("summary") e.summary

/-- The ValueError message raised by add_batch for an invalid entry
(src/tf/sdk.py): a fixed text followed by the entry itself. -/
def validationMessage (e : BatchEntry) : String :=
  "Document missing required fields id and/or content: " ++ entryText e

/-- Outcome of a failed add_batch call, instrumented with the store
state and the number of embedding calls issued at the moment the
exception is raised. -/
inductive BatchFailure where
  | validation (msg : String) (s : VectorStore) (embeds : Nat)
  | storeFail (e : StoreError) (s : VectorStore) (embeds : Nat)
deriving DecidableEq, Repr

/-- The sequential loop of add_batch (src/tf/sdk.py, parallel=False
branch): each entry is validated in order and, when valid, immediately
embedded and upserted before the next entry is examined.  The Nat
component counts embedding calls issued so far. -/
def addBatchSeqAux (E : String → List ℚ) :
    List BatchEntry → VectorStore → Nat → Except BatchFailure (VectorStore × Nat)
  | [], s, n => .ok (s, n)
  | e :: rest, s, n =>
    if entryInvalid e then
      .error (.validation (validationMessage e) s n)
    else
      match VectorStore.set E s (e.id.getD ("")) (e.content.getD (""))
          (e.title.getD ("")) (e.url.getD ("")) (e.summary.getD ("")) with
      | .error err => .error (.storeFail err s (n + 1))
      | .ok s' => addBatchSeqAux E rest s' (n + 1)

/-- DocumentStore.add_batch in sequential mode (src/tf/sdk.py). -/
def DocumentStore.addBatchSeq (E : String → List ℚ) (d : DocumentStore)
    (docs : List BatchEntry) : Except BatchFailure (VectorStore × Nat) :=
  addBatchSeqAux E docs d.store 0

/-- DocumentStore.add_batch in parallel mode (src/tf/sdk.py,
parallel=True branch).  The submission loop validates entries in order
and submits an add task for each valid entry before examining the next;
on the first invalid entry it raises, after which the already submitted
tasks still run to completion on the executor.  The thread pool
completion order is nondeterministic; since every add is a single
atomic upsert and the observable facts treated here are final counts,
validation outcomes and embed call counts, the model determinizes by
folding the submitted adds in submission order. -/
def DocumentStore.addBatchPar (E : String → List ℚ) (d : DocumentStore)
    (docs : List BatchEntry) : Except BatchFailure (VectorStore × Nat) :=
  match docs.dropWhile (fun e => !entryInvalid e) with
  | [] => addBatchSeqAux E docs d.store 0
  | bad :: _ =>
    match addBatchSeqAux E (docs.takeWhile (fun e => !entryInvalid e)) d.store 0 with
    | .ok (s, n) => .error (.validation (validationMessage bad) s n)
    | .error f => .error f

/-- An immutable search result (src/tf/search_result.py SearchResult):
id, score, title, url, summary; no vector, no content. -/
structure SearchResult where
  id : String
  score : ℚ
  title : String
  url : String
  summary : String
deriving DecidableEq, Repr

/-- A value of the Python dicts appearing in results: a string or a
number. -/
inductive DictVal where
  | str (s : String)
  | num (q : ℚ)
deriving DecidableEq, Repr

/-- SearchResult.to_dict (src/tf/search_result.py): the dict with
exactly the keys id, score, title, url, summary. -/
def SearchResult.toDict (r : SearchResult) : List (String × DictVal) :=
  [("id", .str r.id), ("score", .num r.score), ("title", .str r.title),
   ("url", .str r.url), ("summary", .str r.summary)]

/-- Metadata.to_dict style projection of the metadata returned by get:
the dict with exactly the keys title, url, summary. -/
def Metadata.toDict (m : Metadata) : List (String × String) :=
  [("title", m.title), ("url", m.url), ("summary", m.summary)]

/-- DocumentStore.search with return_objects=True (src/tf/sdk.py):
embeds the query, searches the store, and converts every raw row into
a SearchResult. -/
def DocumentStore.search (E : String → List ℚ) (d : DocumentStore)
    (query : String) (k : Nat) : List SearchResult :=
  let queryEmbedding := E query
  let rawResults := d.store.search queryEmbedding k
  rawResults.map (fun r => ⟨r.id, r.score, r.title, r.url, r.summary⟩)

/-- DocumentStore.search_streaming (src/tf/sdk.py): embeds the query,
searches the store, and yields one SearchResult per raw row in order.
The Python generator is finite, so it is embedded as the list of the
values it yields. -/
def DocumentStore.searchStreaming (E : String → List ℚ) (d : DocumentStore)
    (query : String) (k : Nat) : List SearchResult :=
  let queryEmbedding := E query
  let rawResults := d.store.search queryEmbedding k
  rawResults.map (fun r => ⟨r.id, r.score, r.title, r.url, r.summary⟩)

/-- The public operations of DocumentStore that the concurrency claims
talk about. -/
inductive SdkOp where
  | getOp
  | containsOp
  | lenOp
  | searchOp
  | searchStreamingOp
  | addOp
  | updateOp
  | deleteOp
  | deleteBatchOp
deriving DecidableEq, Repr

/-- How an operation may acquire the store lock: not at all, in
exclusive mode, or in shared mode.  The lock of DocumentStore is a
plain threading.Lock, which has no shared mode at all. -/
inductive LockAcquisition where
  | noLock
  | exclusive
  | shared
deriving DecidableEq, Repr

/-- Whether the lock created in DocumentStore init (src/tf/sdk.py line
68, threading.Lock) offers a shared read mode: it does not. -/
def storeLockHasSharedMode : Bool := false

/-- The lock acquisition each operation performs, read off src/tf/sdk.py:
add, update, delete and delete_batch wrap their body in the lock; get,
contains, len, count, search and search_streaming never touch it. -/
def opLockAcquisition : SdkOp → LockAcquisition
  | .getOp => .noLock
  | .containsOp => .noLock
  | .lenOp => .noLock
  | .searchOp => .noLock
  | .searchStreamingOp => .noLock
  | .addOp => .exclusive
  | .updateOp => .exclusive
  | .deleteOp => .exclusive
  | .deleteBatchOp => .exclusive

/-- The lock policy as the specification states it (section 4.3): the
five readers take the lock in shared mode, the writers in exclusive
mode. -/
def specLockPolicy : SdkOp → LockAcquisition
  | .getOp => .shared
  | .containsOp => .shared
  | .lenOp => .shared
  | .searchOp => .shared
  | .searchStreamingOp => .shared
  | .addOp => .exclusive
  | .updateOp => .exclusive
  | .deleteOp => .exclusive
  | .deleteBatchOp => .exclusive

/-- The lock discipline actually implemented: readers take no lock,
writers take the single mutex exclusively. -/
def amendedLockPolicy : SdkOp → LockAcquisition
  | .getOp => .noLock
  | .containsOp => .noLock
  | .lenOp => .noLock
  | .searchOp => .noLock
  | .searchStreamingOp => .noLock
  | .addOp => .exclusive
  | .updateOp => .exclusive
  | .deleteOp => .exclusive
  | .deleteBatchOp => .exclusive

/-- Events of the store lock and table as performed by the delete
paths. -/
inductive LockEvent where
  | acquire
  | release
  | rmOp (id : String)
deriving DecidableEq, Repr

/-- The event trace of DocumentStore.delete (src/tf/sdk.py): one lock
acquisition around a single removal. -/
def deleteTrace (id : String) : List LockEvent :=
  [.acquire, .rmOp id, .release]

/-- The event trace of DocumentStore.delete_batch (src/tf/sdk.py): a
single lock acquisition around the whole removal loop. -/
def deleteBatchTrace (ids : List String) : List LockEvent :=
  [.acquire] ++ ids.map LockEvent.rmOp ++ [.release]

/-- The event trace of calling delete once per id. -/
def deleteEachTrace (ids : List String) : List LockEvent :=
  ids.flatMap deleteTrace

/-- Number of critical sections (lock acquisitions) in a trace. -/
def criticalSections (t : List LockEvent) : Nat :=
  t.countP (fun e => match e with | .acquire => true | _ => false)

/-- Containment of a character list inside another, used to state that
a validation message does mention or does not mention an id. -/
def hasInner (needle : List Char) : List Char → Bool
  | [] => needle.isEmpty
  | c :: rest => needle.isPrefixOf (c :: rest) || hasInner needle rest

/-- Replacement of a present-but-empty optional field by an absent one,
used to compare how the batch validation treats the two. -/
def dropEmpty : Option String → Option String
  | none => none
  | some s => if s.isEmpty then none else some s

/-- The variant of a batch entry in which every present-but-empty
required field is absent instead. -/
def absentize (e : BatchEntry) : BatchEntry :=
  { e with id := dropEmpty e.id, content := dropEmpty e.content }

instance {e a : Type} [DecidableEq e] [DecidableEq a] : DecidableEq (Except e a) := fun x y =>
  match x, y with
  | .error u, .error v =>
    if h : u = v then .isTrue (by rw [h]) else .isFalse (by intro hc; cases hc; exact h rfl)
  | .ok u, .ok v =>
    if h : u = v then .isTrue (by rw [h]) else .isFalse (by intro hc; cases hc; exact h rfl)
  | .error _, .ok _ => .isFalse (by intro hc; cases hc)
  | .ok _, .error _ => .isFalse (by intro hc; cases hc)

/-- A one dimensional embedder used for concrete witnesses: every text
embeds to the unit vector of dimension one. -/
def embOne : String → List ℚ := fun _ => [1]

/-- An empty store of dimension one. -/
def emptyStore : DocumentStore := ⟨⟨1, []⟩⟩

/-- The store of dimension one holding the single document p as left by
embedding and inserting goodP. -/
def pStore : VectorStore := ⟨1, [(("p"), ⟨[1], "", "", ""⟩)]⟩

/-- A valid batch entry with id p and content hi. -/
def goodP : BatchEntry := ⟨some ("p"), some ("hi"), none, none, none⟩

/-- An invalid batch entry with id q and no content. -/
def badQ : BatchEntry := ⟨some ("q"), none, none, none, none⟩

/-- A second invalid batch entry with id zzz and no content. -/
def badZ : BatchEntry := ⟨some ("zzz"), none, none, none, none⟩

/-- An entry whose content is present but empty. -/
def emptyContentEntry : BatchEntry := ⟨some ("x"), some (""), none, none, none⟩

/-- A store of dimension one holding one fully populated document. -/
def oneDocStore : DocumentStore := ⟨⟨1, [(("p"), ⟨[1], "T", "U", "S"⟩)]⟩⟩

/-- Processing a wholly valid front of a batch and then a tail is the
same as processing the front and continuing with the tail from the
resulting state. -/
theorem seqAux_valid_append (E : String → List ℚ) (front : List BatchEntry)
    (hfront : ∀ e ∈ front, entryInvalid e = false) :
    ∀ (tail : List BatchEntry) (s : VectorStore) (n : Nat),
      addBatchSeqAux E (front ++ tail) s n =
        match addBatchSeqAux E front s n with
        | .ok (s', n') => addBatchSeqAux E tail s' n'
        | .error f => .error f := by
  induction front with
  | nil => intro tail s n; simp [addBatchSeqAux]
  | cons e front' ih =>
    intro tail s n
    have he : entryInvalid e = false := hfront e (List.mem_cons_self e front')
    have hfront' : ∀ x ∈ front', entryInvalid x = false :=
      fun x hx => hfront x (List.mem_cons_of_mem e hx)
    simp only [List.cons_append, addBatchSeqAux, he, Bool.false_eq_true, if_false]
    cases VectorStore.set E s (e.id.getD ("")) (e.content.getD (""))
        (e.title.getD ("")) (e.url.getD ("")) (e.summary.getD ("")) with
    | error err => rfl
    | ok s' => exact ih hfront' tail s' (n + 1)

/-- A batch whose first entry is invalid fails immediately with the
validation error of that entry, with no embedding call issued and the
store untouched. -/
theorem seqAux_invalid_head (E : String → List ℚ) (bad : BatchEntry)
    (hbad : entryInvalid bad = true) (rest : List BatchEntry) (s : VectorStore) (n : Nat) :
    addBatchSeqAux E (bad :: rest) s n = .error (.validation (validationMessage bad) s n) := by
  simp [addBatchSeqAux, hbad]

/-- A successful run of the sequential loop issues exactly one
embedding call per entry. -/
theorem seqAux_ok_embeds (E : String → List ℚ) :
    ∀ (docs : List BatchEntry) (s : VectorStore) (n : Nat) (s' : VectorStore) (n' : Nat),
      addBatchSeqAux E docs s n = .ok (s', n') → n' = n + docs.length := by
  intro docs
  induction docs with
  | nil =>
    intro s n s' n' h
    simp [addBatchSeqAux] at h
    obtain ⟨-, h2⟩ := h
    simpa using h2.symm
  | cons e rest ih =>
    intro s n s' n' h
    by_cases he : entryInvalid e = true
    · simp [addBatchSeqAux, he] at h
    · simp only [addBatchSeqAux, he, if_false] at h
      cases hset : VectorStore.set E s (e.id.getD ("")) (e.content.getD (""))
          (e.title.getD ("")) (e.url.getD ("")) (e.summary.getD ("")) with
      | error err => rw [hset] at h; cases h
      | ok s2 =>
        rw [hset] at h
        have := ih s2 (n + 1) s' n' h
        simp [List.length_cons]
        omega

/-- The head of the part of a list dropped by dropWhile fails the
predicate. -/
theorem dropWhile_head_not {α : Type} (p : α → Bool) :
    ∀ (l : List α) (b : α) (t : List α), l.dropWhile p = b :: t → p b = false := by
  intro l
  induction l with
  | nil => intro b t h; simp [List.dropWhile] at h
  | cons a l' ih =>
    intro b t h
    rw [List.dropWhile_cons] at h
    by_cases ha : p a = true
    · rw [if_pos ha] at h; exact ih b t h
    · rw [if_neg ha] at h
      cases h
      simpa using ha

/-- Parallel mode of add_batch has the same observable outcome as the
sequential mode in this model: same final state, same failure, same
number of embedding calls. -/
theorem addBatchPar_eq_seq (E : String → List ℚ) (d : DocumentStore) (docs : List BatchEntry) :
    DocumentStore.addBatchPar E d docs = DocumentStore.addBatchSeq E d docs := by
  unfold DocumentStore.addBatchPar DocumentStore.addBatchSeq
  cases hdrop : docs.dropWhile (fun e => !entryInvalid e) with
  | nil => rfl
  | cons bad rest2 =>
    have hbad : entryInvalid bad = true := by
      have := dropWhile_head_not (fun e => !entryInvalid e) docs bad rest2 hdrop
      simpa using this
    have hfront : ∀ e ∈ docs.takeWhile (fun e => !entryInvalid e), entryInvalid e = false := by
      intro e he
      have := List.mem_takeWhile_imp he
      simpa using this
    have hdecomp : docs.takeWhile (fun e => !entryInvalid e) ++ bad :: rest2 = docs := by
      rw [← hdrop]; exact List.takeWhile_append_dropWhile _ _
    conv_rhs => rw [← hdecomp]
    rw [seqAux_valid_append E _ hfront]
    cases haux : addBatchSeqAux E (docs.takeWhile (fun e => !entryInvalid e)) d.store 0 with
    | error f => rfl
    | ok pr =>
      cases pr with
      | mk s n => simp [seqAux_invalid_head E bad hbad rest2 s n]

/-- C1: the claim that a batch containing an entry missing id or
content fails before any embedding call or table mutation is false:
validation is interleaved with processing, so in both modes the valid
entries preceding the first invalid one are embedded and inserted
before the error is raised.  Here the batch goodP, badQ leaves one
document in the table and has issued one embedding call at the moment
of failure, so count after is not count before. -/
theorem c1_counterexample :
    DocumentStore.count emptyStore = 0 ∧
    DocumentStore.addBatchSeq embOne emptyStore [goodP, badQ] =
      .error (.validation (validationMessage badQ) pStore 1) ∧
    DocumentStore.addBatchPar embOne emptyStore [goodP, badQ] =
      .error (.validation (validationMessage badQ) pStore 1) ∧
    VectorStore.len pStore = 1 := by
  decide

/-- C1 (amended): when a batch contains an invalid entry, the call
fails with the validation error of the first invalid entry; the valid
entries before it are each embedded and inserted (one embedding call
per processed entry), entries from the first invalid one on are never
processed, and parallel mode has the same observable outcome as
sequential mode. -/
theorem c1_batch_validation_interleaved (E : String → List ℚ) (d : DocumentStore)
    (front : List BatchEntry) (bad : BatchEntry) (rest : List BatchEntry)
    (hfront : ∀ e ∈ front, entryInvalid e = false) (hbad : entryInvalid bad = true) :
    (∀ s n, addBatchSeqAux E front d.store 0 = .ok (s, n) →
      DocumentStore.addBatchSeq E d (front ++ bad :: rest) =
        .error (.validation (validationMessage bad) s n) ∧ n = front.length) ∧
    DocumentStore.addBatchPar E d (front ++ bad :: rest) =
      DocumentStore.addBatchSeq E d (front ++ bad :: rest) := by
  constructor
  · intro s n hok
    constructor
    · unfold DocumentStore.addBatchSeq
      rw [seqAux_valid_append E front hfront, hok]
      exact seqAux_invalid_head E bad hbad rest s n
    · have := seqAux_ok_embeds E front d.store 0 s n hok
      omega
  · exact addBatchPar_eq_seq E d (front ++ bad :: rest)

/-- C1 (witness): the amended theorem applied to the concrete batch
goodP, badQ on the empty store. -/
theorem c1_witness :
    DocumentStore.addBatchSeq embOne emptyStore ([goodP] ++ badQ :: []) =
      .error (.validation (validationMessage badQ) pStore 1) ∧ (1 : Nat) = [goodP].length :=
  (c1_batch_validation_interleaved embOne emptyStore [goodP] badQ []
    (by decide) (by decide)).1 pStore 1 (by decide)

/-- C4: the claim that the validation error enumerates every offending
entry is false: the error is raised at the first offending entry and
mentions only that entry.  Here both entries of the batch are invalid,
yet the error message is exactly the message for badQ and never
mentions the id zzz of the second offending entry. -/
theorem c4_counterexample :
    entryInvalid badQ = true ∧ entryInvalid badZ = true ∧
    DocumentStore.addBatchSeq embOne emptyStore [badQ, badZ] =
      .error (.validation (validationMessage badQ) emptyStore.store 0) ∧
    hasInner ("zzz").data (validationMessage badQ).data = false := by
  decide

/-- C4 (amended): the validation error of add_batch reports exactly the
first offending entry in iteration order; the outcome is unchanged by
whatever entries, offending or not, follow it. -/
theorem c4_first_offender_only (E : String → List ℚ) (d : DocumentStore)
    (front : List BatchEntry) (bad : BatchEntry) (rest rest' : List BatchEntry)
    (hfront : ∀ e ∈ front, entryInvalid e = false) (hbad : entryInvalid bad = true)
    (s : VectorStore) (n : Nat) (hok : addBatchSeqAux E front d.store 0 = .ok (s, n)) :
    DocumentStore.addBatchSeq E d (front ++ bad :: rest) =
      .error (.validation (validationMessage bad) s n) ∧
    DocumentStore.addBatchSeq E d (front ++ bad :: rest') =
      DocumentStore.addBatchSeq E d (front ++ bad :: rest) := by
  have key : ∀ tail : List BatchEntry,
      DocumentStore.addBatchSeq E d (front ++ bad :: tail) =
        .error (.validation (validationMessage bad) s n) := by
    intro tail
    unfold DocumentStore.addBatchSeq
    rw [seqAux_valid_append E front hfront, hok]
    exact seqAux_invalid_head E bad hbad tail s n
  exact ⟨key rest, (key rest').trans (key rest).symm⟩

/-- C4 (witness): the amended theorem applied to the concrete batch
badQ, badZ on the empty store. -/
theorem c4_witness :
    DocumentStore.addBatchSeq embOne emptyStore ([] ++ badQ :: [badZ]) =
      .error (.validation (validationMessage badQ) emptyStore.store 0) ∧
    DocumentStore.addBatchSeq embOne emptyStore ([] ++ badQ :: []) =
      DocumentStore.addBatchSeq embOne emptyStore ([] ++ badQ :: [badZ]) :=
  c4_first_offender_only embOne emptyStore [] badQ [badZ] []
    (by intro e he; cases he) (by decide) emptyStore.store 0 (by decide)

/-- C9: an entry whose id or content is present but empty is rejected
by add_batch exactly like one whose field is absent: the falsiness
check treats the empty string and the absent field alike, and in both
modes the call fails with the validation error before any embedding
call or mutation, as it does for the absent variant of the entry. -/
theorem c9_empty_field_rejected (e : BatchEntry) (E : String → List ℚ) (d : DocumentStore)
    (rest : List BatchEntry) (h : e.id = some ("") ∨ e.content = some ("")) :
    entryInvalid e = true ∧
    entryInvalid (absentize e) = true ∧
    DocumentStore.addBatchSeq E d (e :: rest) =
      .error (.validation (validationMessage e) d.store 0) ∧
    DocumentStore.addBatchPar E d (e :: rest) =
      .error (.validation (validationMessage e) d.store 0) ∧
    DocumentStore.addBatchSeq E d (absentize e :: rest) =
      .error (.validation (validationMessage (absentize e)) d.store 0) := by
  have hdrop : ∀ o : Option String, isFalsy (dropEmpty o) = isFalsy o := by
    intro o
    cases o with
    | none => rfl
    | some s =>
      by_cases hs : s.isEmpty
      · simp [dropEmpty, isFalsy, hs]
      · simp [dropEmpty, isFalsy, hs]
  have hempty : String.isEmpty ("") = true := by decide
  have hinv : entryInvalid e = true := by
    rcases h with h1 | h1
    · simp [entryInvalid, isFalsy, h1, hempty]
    · simp [entryInvalid, isFalsy, h1, hempty]
  have hinv2 : entryInvalid (absentize e) = true := by
    have : entryInvalid (absentize e) = entryInvalid e := by
      simp [entryInvalid, absentize, hdrop]
    rw [this, hinv]
  have hseq : DocumentStore.addBatchSeq E d (e :: rest) =
      .error (.validation (validationMessage e) d.store 0) :=
    seqAux_invalid_head E e hinv rest d.store 0
  refine ⟨hinv, hinv2, hseq, ?_, seqAux_invalid_head E (absentize e) hinv2 rest d.store 0⟩
  rw [addBatchPar_eq_seq]
  exact hseq

/-- C9 (witness): the theorem applied to the concrete entry whose
content is the empty string, on the empty store. -/
theorem c9_witness :
    entryInvalid emptyContentEntry = true ∧
    entryInvalid (absentize emptyContentEntry) = true ∧
    DocumentStore.addBatchSeq embOne emptyStore (emptyContentEntry :: []) =
      .error (.validation (validationMessage emptyContentEntry) emptyStore.store 0) ∧
    DocumentStore.addBatchPar embOne emptyStore (emptyContentEntry :: []) =
      .error (.validation (validationMessage emptyContentEntry) emptyStore.store 0) ∧
    DocumentStore.addBatchSeq embOne emptyStore (absentize emptyContentEntry :: []) =
      .error (.validation (validationMessage (absentize emptyContentEntry)) emptyStore.store 0) :=
  c9_empty_field_rejected emptyContentEntry embOne emptyStore [] (by decide)

/-- C5: an update targeting an absent id fails with NotFound; since the
failing call returns no new store state, nothing is modified and no
record is created. -/
theorem c5_update_absent_fails (d : DocumentStore) (docId : String) (t u sm : Option String)
    (h : DocumentStore.get d docId = none) :
    DocumentStore.update d docId t u sm = .error StoreError.notFound ∧
    ∀ d', DocumentStore.update d docId t u sm ≠ .ok d' := by
  have hl : VectorStore.lookup d.store docId = none := by
    cases hlk : VectorStore.lookup d.store docId with
    | none => rfl
    | some r => simp [DocumentStore.get, VectorStore.getMeta, hlk] at h
  have h1 : DocumentStore.update d docId t u sm = .error StoreError.notFound := by
    simp [DocumentStore.update, VectorStore.update, hl, Except.map]
  exact ⟨h1, fun d' hc => by rw [h1] at hc; cases hc⟩

/-- C5 (witness): the theorem applied to the empty store at an absent
id. -/
theorem c5_witness :
    DocumentStore.update emptyStore ("missing-id") (some ("X")) none none =
      .error StoreError.notFound ∧
    ∀ d', DocumentStore.update emptyStore ("missing-id") (some ("X")) none none ≠ .ok d' :=
  c5_update_absent_fails emptyStore ("missing-id") (some ("X")) none none (by decide)

/-- Presence of a key in the table is equivalent to a successful
lookup. -/
theorem lookup_isSome_iff (s : VectorStore) (id : String) :
    (VectorStore.lookup s id).isSome = true ↔ id ∈ s.table.map Prod.fst := by
  unfold VectorStore.lookup
  cases hf : s.table.find? (fun p => p.1 == id) with
  | none =>
    simp only [Option.isSome_none, false_iff, Bool.false_eq_true]
    intro hm
    obtain ⟨p, hp, hfst⟩ := List.mem_map.mp hm
    have := List.find?_eq_none.mp hf p hp
    simp [hfst] at this
  | some p =>
    simp only [Option.isSome_some, true_iff]
    have hp := List.find?_some hf
    have hmem := List.mem_of_find?_eq_some hf
    exact List.mem_map.mpr ⟨p, hmem, by simpa using hp⟩

/-- Metadata retrieval succeeds exactly when the lookup does. -/
theorem getMeta_isSome (s : VectorStore) (id : String) :
    (VectorStore.getMeta s id).isSome = (VectorStore.lookup s id).isSome := by
  unfold VectorStore.getMeta
  cases VectorStore.lookup s id <;> rfl

/-- C10: the dunder contains of the store returns true exactly when get
returns metadata (equivalently, exactly when the id is a key of the
table), and the dunder len always agrees with count, which is the table
length. -/
theorem c10_contains_len_agree (d : DocumentStore) (docId : String) :
    (DocumentStore.containsDoc d docId = true ↔ (DocumentStore.get d docId).isSome = true) ∧
    (DocumentStore.containsDoc d docId = true ↔ docId ∈ d.store.table.map Prod.fst) ∧
    DocumentStore.dunderLen d = DocumentStore.count d ∧
    DocumentStore.count d = d.store.table.length := by
  refine ⟨Iff.rfl, ?_, rfl, rfl⟩
  have h1 : DocumentStore.containsDoc d docId = (VectorStore.lookup d.store docId).isSome := by
    unfold DocumentStore.containsDoc DocumentStore.get
    exact getMeta_isSome d.store docId
  rw [h1, lookup_isSome_iff]

/-- C7: the metadata returned by get carries exactly the keys title,
url and summary (never content), and every SearchResult produced by
search or search_streaming carries exactly id, score, title, url and
summary, never the content and never the vector. -/
theorem c7_content_never_persists (E : String → List ℚ) (d : DocumentStore) (q : String) (k : Nat) :
    (∀ docId md, DocumentStore.get d docId = some md →
      md.toDict.map Prod.fst = [("title"), ("url"), ("summary")] ∧
      ("content") ∉ md.toDict.map Prod.fst) ∧
    (∀ r ∈ DocumentStore.search E d q k,
      r.toDict.map Prod.fst = [("id"), ("score"), ("title"), ("url"), ("summary")] ∧
      ("content") ∉ r.toDict.map Prod.fst ∧ ("vector") ∉ r.toDict.map Prod.fst) ∧
    (∀ r ∈ DocumentStore.searchStreaming E d q k,
      r.toDict.map Prod.fst = [("id"), ("score"), ("title"), ("url"), ("summary")] ∧
      ("content") ∉ r.toDict.map Prod.fst ∧ ("vector") ∉ r.toDict.map Prod.fst) := by
  refine ⟨?_, ?_, ?_⟩
  · intro docId md _
    refine ⟨rfl, ?_⟩
    show ("content") ∉ [("title"), ("url"), ("summary")]
    decide
  · intro r _
    refine ⟨rfl, ?_, ?_⟩
    · show ("content") ∉ [("id"), ("score"), ("title"), ("url"), ("summary")]
      decide
    · show ("vector") ∉ [("id"), ("score"), ("title"), ("url"), ("summary")]
      decide
  · intro r _
    refine ⟨rfl, ?_, ?_⟩
    · show ("content") ∉ [("id"), ("score"), ("title"), ("url"), ("summary")]
      decide
    · show ("vector") ∉ [("id"), ("score"), ("title"), ("url"), ("summary")]
      decide

/-- C7 (witness): the theorem applied to a store holding one fully
populated document, at its stored metadata value and at the result the
search for it returns. -/
theorem c7_witness :
    ((Metadata.mk ("T") ("U") ("S")).toDict.map Prod.fst = [("title"), ("url"), ("summary")] ∧
      ("content") ∉ (Metadata.mk ("T") ("U") ("S")).toDict.map Prod.fst) ∧
    ((SearchResult.mk ("p") 1 ("T") ("U") ("S")).toDict.map Prod.fst =
        [("id"), ("score"), ("title"), ("url"), ("summary")] ∧
      ("content") ∉ (SearchResult.mk ("p") 1 ("T") ("U") ("S")).toDict.map Prod.fst ∧
      ("vector") ∉ (SearchResult.mk ("p") 1 ("T") ("U") ("S")).toDict.map Prod.fst) :=
  ⟨(c7_content_never_persists embOne oneDocStore ("hi") 1).1 ("p")
      (Metadata.mk ("T") ("U") ("S")) (by decide),
    (c7_content_never_persists embOne oneDocStore ("hi") 1).2.1
      (SearchResult.mk ("p") 1 ("T") ("U") ("S")) (by
        have hs : DocumentStore.search embOne oneDocStore ("hi") 1 =
            [SearchResult.mk ("p") 1 ("T") ("U") ("S")] := by
          simp [DocumentStore.search, VectorStore.search, oneDocStore, List.insertionSort,
            simScore, dotProd, embOne]
        rw [hs]
        exact List.mem_singleton.mpr rfl)⟩

/-- C6: every search call returns results whose scores are
non-increasing, and results with equal scores appear in ascending order
of document id. -/
theorem c6_ranking_monotonic (E : String → List ℚ) (d : DocumentStore) (q : String) (k : Nat) :
    List.Pairwise
      (fun a b : SearchResult => b.score ≤ a.score ∧ (a.score = b.score → a.id ≤ b.id))
      (DocumentStore.search E d q k) := by
  unfold DocumentStore.search VectorStore.search
  rw [List.pairwise_map]
  have hs : List.Sorted rankLE
      (List.insertionSort rankLE
        (d.store.table.map
          (fun p => ⟨p.1, simScore (E q) p.2.vector, p.2.title, p.2.url, p.2.summary⟩))) :=
    List.sorted_insertionSort rankLE _
  have ht := List.Pairwise.sublist (List.take_sublist k _) hs
  refine ht.imp ?_
  intro a b hab
  show b.score ≤ a.score ∧ (a.score = b.score → a.id ≤ b.id)
  rcases hab with hlt | ⟨heq, hid⟩
  · refine ⟨le_of_lt hlt, ?_⟩
    intro heq
    rw [heq] at hlt
    exact absurd hlt (lt_irrefl _)
  · exact ⟨le_of_eq heq.symm, fun _ => hid⟩

/-- C3: the sequence yielded by search_streaming is finite and is
exactly the list returned by search with return_objects, element for
element in the same order; its length is min k count. -/
theorem c3_streaming_matches_search (E : String → List ℚ) (d : DocumentStore)
    (q : String) (k : Nat) :
    DocumentStore.searchStreaming E d q k = DocumentStore.search E d q k ∧
    (DocumentStore.searchStreaming E d q k).length = min k (DocumentStore.count d) := by
  refine ⟨rfl, ?_⟩
  unfold DocumentStore.searchStreaming VectorStore.search DocumentStore.count VectorStore.len
  rw [List.length_map, List.length_take, (List.perm_insertionSort rankLE _).length_eq,
    List.length_map]

/-- C2: the claim that get and search acquire the store lock in shared
mode is false: the lock is a plain mutex with no shared mode, and the
read operations acquire no lock at all. -/
theorem c2_counterexample :
    opLockAcquisition SdkOp.getOp = LockAcquisition.noLock ∧
    opLockAcquisition SdkOp.searchOp = LockAcquisition.noLock ∧
    specLockPolicy SdkOp.getOp = LockAcquisition.shared ∧
    LockAcquisition.noLock ≠ LockAcquisition.shared ∧
    storeLockHasSharedMode = false := by
  decide

/-- C2 (amended): the store guards writes with a single
mutual-exclusion lock: add, update, delete and delete_batch (and hence
the per-record insert step of batch ingestion, which calls add) acquire
it exclusively and are mutually exclusive with each other, while get,
contains, len, search and search_streaming acquire no lock in the SDK
layer and are not excluded by writers there. -/
theorem c2_lock_discipline (op : SdkOp) :
    opLockAcquisition op = amendedLockPolicy op ∧ opLockAcquisition op ≠ LockAcquisition.shared := by
  cases op <;> exact ⟨rfl, by decide⟩

/-- Removals performed by folding delete agree with folding the Rust rm
on the inner store. -/
theorem foldl_delete_store (ids : List String) :
    ∀ d : DocumentStore,
      ids.foldl (fun acc i => DocumentStore.delete acc i) d =
        ⟨ids.foldl (fun s i => VectorStore.rm s i) d.store⟩ := by
  induction ids with
  | nil => intro d; cases d; rfl
  | cons i rest ih =>
    intro d
    simp only [List.foldl_cons]
    rw [ih]
    rfl

/-- A trace of removals alone opens no critical section. -/
theorem countAcquire_map_rm (ids : List String) :
    criticalSections (ids.map LockEvent.rmOp) = 0 := by
  induction ids with
  | nil => rfl
  | cons i r ih =>
    unfold criticalSections at ih ⊢
    rw [List.map_cons, List.countP_cons]
    simp [ih]

/-- Calling delete once per id opens one critical section per id. -/
theorem countAcquire_each (ids : List String) :
    criticalSections (deleteEachTrace ids) = ids.length := by
  induction ids with
  | nil => rfl
  | cons i r ih =>
    have hsplit : deleteEachTrace (i :: r) = deleteTrace i ++ deleteEachTrace r := by
      simp [deleteEachTrace]
    rw [hsplit]
    unfold criticalSections at ih ⊢
    rw [List.countP_append, ih]
    simp [deleteTrace, List.countP_cons, List.length_cons]
    omega

/-- C8: the claim that delete_batch performs N independent atomic write
operations is false: the whole removal loop runs inside one lock
acquisition, a single critical section, where N separate delete calls
would open N. -/
theorem c8_counterexample :
    criticalSections (deleteBatchTrace [("a"), ("b")]) = 1 ∧
    criticalSections (deleteEachTrace [("a"), ("b")]) = 2 ∧
    (1 : Nat) ≠ 2 := by
  decide

/-- C8 (amended): delete_batch leaves the store in the same final state
as calling delete once per id in the given order, but it performs all N
removals inside a single critical section of the store lock — one
atomic unit with respect to other writers — whereas N separate delete
calls open N critical sections. -/
theorem c8_delete_batch_semantics (d : DocumentStore) (ids : List String) :
    DocumentStore.deleteBatch d ids =
      ids.foldl (fun acc i => DocumentStore.delete acc i) d ∧
    criticalSections (deleteBatchTrace ids) = 1 ∧
    criticalSections (deleteEachTrace ids) = ids.length := by
  refine ⟨?_, ?_, countAcquire_each ids⟩
  · rw [foldl_delete_store ids d]
    rfl
  · unfold criticalSections deleteBatchTrace
    rw [List.countP_append, List.countP_append]
    have h0 : criticalSections (ids.map LockEvent.rmOp) = 0 := countAcquire_map_rm ids
    unfold criticalSections at h0
    rw [h0]
    rfl
